import Mathlib

/-!
# Backend_Service — shallow embedding of the tag-resolution, ownership and
membership core

This file embeds the logic of the Robotics Club backend that the claims
concern, translated from the TypeScript source:

* `src/models/Tag.ts` — the Tag schema (`name` lowercased/trimmed by schema
  setters, `type ∈ {SYSTEM, USER}`, `createdBy` required, unique index on
  `(name, type)`).
* `src/controllers/post.controller.ts` — `createPost`, `updatePost`.
* `src/controllers/project.controller.ts` — `createProject`, `updateProject`,
  `deleteProject`.
* `src/controllers/comment.controller.ts` — `updateComment`, `deleteComment`,
  together with `getModelEntry` from `src/utils` (model registry mapping the
  route tokens `posts`/`projects` to the parent discriminator).
* `src/middleware/role.middleware.ts` (`requireRoles`),
  `src/middleware/ownership.middleware.ts` (`isOwnerOrAdmin`), and the
  project route pipeline from `src/routes/project.routes.ts`.
* `src/controllers/admin.controller.ts` — `approveUser`, `rejectUser`,
  `deleteUser`; the two `MailerService` iterations of
  `src/services` (one forwards `sendMail` failures, one catches and logs
  them) are modelled as the two mailer functions below.

Modelling conventions: Mongo document ids are `Nat`; a collection is a list
of documents plus a fresh-id counter; `findOne`/`findById` is `List.find?`
(first match, insertion order); `findByIdAndDelete` removes the first match
(`List.eraseP`); a Mongoose write with a failed schema validation or a
unique-index conflict is an `Except.error`, which the controllers' `catch`
blocks turn into a 500 response.  Mongoose applies the `lowercase`/`trim`
setters of the Tag schema both when saving and when casting query filters
(default since Mongoose 5), which `schemaNorm` models.  Timestamps, image
fields and the cosmetic pre-save placeholder-image hook are omitted: no
claim depends on them.
-/

namespace BackendService

abbrev UserId := Nat
abbrev TagId := Nat
abbrev EntityId := Nat

/-- Roles from `src/types` (`user` | `member` | `admin`). -/
inductive Role where
  | user
  | member
  | admin
deriving DecidableEq, Repr

/-- The authenticated requester attached to a request by the auth middleware
(`req.user`): its id and role. -/
structure AuthUser where
  id : UserId
  role : Role
deriving DecidableEq, Repr

/-- `TagType` from `src/models/Tag.ts`. -/
inductive TagType where
  | SYSTEM
  | USER
deriving DecidableEq, Repr

/-- A Tag document (`src/models/Tag.ts`): stored `name` is always in the
schema-normalized form. `createdBy` is `Option` at the document level, but
the schema declares it `required`, which `tagCreate` below enforces. -/
structure Tag where
  id : TagId
  name : String
  type : TagType
  createdBy : Option UserId
deriving DecidableEq, Repr

/-- The Tag collection plus the fresh-id counter. -/
structure TagDB where
  tags : List Tag
  nextId : TagId
deriving DecidableEq, Repr

/-- JavaScript `String.prototype.toLowerCase()`, modelled character-wise
(the inputs of interest are ASCII).  Defined structurally over the
character list so that concrete runs reduce inside the kernel. -/
def jsToLower (s : String) : String := ⟨s.data.map Char.toLower⟩

def jsWhitespace (c : Char) : Bool := c == ' ' || c == '\t' || c == '\n' || c == '\r'

/-- JavaScript `String.prototype.trim()`: strip leading and trailing
whitespace. -/
def jsTrim (s : String) : String :=
  ⟨((s.data.dropWhile jsWhitespace).reverse.dropWhile jsWhitespace).reverse⟩

/-- The Tag schema's `lowercase: true, trim: true` setters on `name`.
Applied on save and when casting query filter values. -/
def schemaNorm (s : String) : String := jsTrim (jsToLower s)

/-- Storage-level write failures: a failed schema validation
(`required` field absent or a required string empty) or a violation of the
unique `(name, type)` index. -/
inductive DbError where
  | validation
  | duplicateKey
deriving DecidableEq, Repr

/-- `Tag.findOne({ name })` — kind-agnostic lookup by name. -/
def findTagByName (db : TagDB) (name : String) : Option Tag :=
  db.tags.find? (fun t => t.name == schemaNorm name)

/-- `Tag.findOne({ name, type: "SYSTEM" })`. -/
def findSystemTagByName (db : TagDB) (name : String) : Option Tag :=
  db.tags.find? (fun t => t.name == schemaNorm name && t.type == TagType.SYSTEM)

/-- `Tag.create(...)` under the `src/models/Tag.ts` schema: normalize the
name, validate (`name` required and non-empty, `createdBy` required),
enforce the unique `(name, type)` index, then insert. -/
def tagCreate (db : TagDB) (name : String) (ty : TagType) (createdBy : Option UserId) :
    Except DbError (Tag × TagDB) :=
  let n := schemaNorm name
  if n = "" then Except.error DbError.validation
  else if createdBy.isNone then Except.error DbError.validation
  else if db.tags.any (fun t => t.name == n && t.type == ty) then
    Except.error DbError.duplicateKey
  else
    let t : Tag := { id := db.nextId, name := n, type := ty, createdBy := createdBy }
    Except.ok (t, { tags := db.tags ++ [t], nextId := db.nextId + 1 })

/-- Insertion-order deduplication, as JavaScript `new Set(list)` produces:
keep the first occurrence of each element. -/
def dedupKeepFirstAux (seen : List String) : List String → List String
  | [] => []
  | x :: xs =>
    if x ∈ seen then dedupKeepFirstAux seen xs
    else x :: dedupKeepFirstAux (x :: seen) xs

def dedupKeepFirst (l : List String) : List String := dedupKeepFirstAux [] l

/-- The post controller's request-list normalization
(`post.controller.ts:240-244`):
`[...new Set(tags.map(t => t.trim().toLowerCase()).filter(Boolean))]`. -/
def normalizePostNames (l : List String) : List String :=
  dedupKeepFirst ((l.map (fun t => jsToLower (jsTrim t))).filter (fun s => s != ""))

/-- The lookup-or-create loop shared (by copy-paste in the source) by the
post and project controllers. `createdByArg` is what the call site passes to
`Tag.create` (`none` in `post.controller.ts`, `some author` in
`project.controller.ts`); `pre` is the per-name preprocessing at the call
site (the identity for posts, whose list was already normalized;
`String.toLower` for projects).  The Tag collection is threaded through so
that tags created before a failure remain, exactly as in the source (each
`Tag.create` is an independent awaited write; there is no transaction). -/
def resolveLoop (createdByArg : Option UserId) (pre : String → String) :
    TagDB → List String → Except DbError (List Tag) × TagDB
  | db, [] => (Except.ok [], db)
  | db, n :: rest =>
    match findTagByName db (pre n) with
    | some t =>
      match resolveLoop createdByArg pre db rest with
      | (Except.ok ts, db1) => (Except.ok (t :: ts), db1)
      | (Except.error e, db1) => (Except.error e, db1)
    | none =>
      match tagCreate db (pre n) TagType.USER createdByArg with
      | Except.error e => (Except.error e, db)
      | Except.ok (t, db1) =>
        match resolveLoop createdByArg pre db1 rest with
        | (Except.ok ts, db2) => (Except.ok (t :: ts), db2)
        | (Except.error e, db2) => (Except.error e, db2)

/-- A Post or Project document: the two schemas are structurally identical
for the fields the claims concern (`src/models/Post.ts`,
`src/models/Project.ts`). -/
structure ContentEntity where
  id : EntityId
  title : String
  content : String
  author : UserId
  tags : List TagId
  mainTag : TagId
deriving DecidableEq, Repr

/-- A Post or Project collection plus the fresh-id counter. -/
structure EntityStore where
  entities : List ContentEntity
  nextId : EntityId
deriving DecidableEq, Repr

def EntityStore.findById (s : EntityStore) (id : EntityId) : Option ContentEntity :=
  s.entities.find? (fun e => e.id == id)

/-- `Model.create(...)` / `new Model(...).save()` for a fresh document. -/
def EntityStore.saveNew (s : EntityStore) (e : ContentEntity) : EntityStore :=
  { entities := s.entities ++ [e], nextId := s.nextId + 1 }

/-- `doc.save()` on a fetched document: replace the persisted copy. -/
def EntityStore.saveExisting (s : EntityStore) (e : ContentEntity) : EntityStore :=
  { s with entities := s.entities.map (fun x => if x.id == e.id then e else x) }

/-- `Model.findByIdAndDelete(id)`: remove the first document with that id. -/
def EntityStore.deleteById (s : EntityStore) (id : EntityId) : EntityStore :=
  { s with entities := s.entities.eraseP (fun e => e.id == id) }

/-- HTTP-level outcome of a handler. `ok` is a 200 (optionally carrying the
entity echoed back), `created` a 201, and the rest map to 400/403/404/500. -/
inductive Resp where
  | ok (body : Option ContentEntity)
  | created (body : ContentEntity)
  | badRequest (msg : String)
  | forbidden (msg : String)
  | notFound (msg : String)
  | serverError
deriving DecidableEq, Repr

/-- The mainTag-inclusion step shared by all four tag-writing handlers:
`if (!resolvedTags.some(t => t._id.equals(mainTagDoc._id))) push(mainTagDoc)`. -/
def attachMain (resolved : List Tag) (mainTagDoc : Tag) : List Tag :=
  if resolved.any (fun t => t.id == mainTagDoc.id) then resolved
  else resolved ++ [mainTagDoc]

/-- A create/update request body. `none` is an absent (`undefined`) field;
`some ""` is a present-but-empty string (falsy in the JS guards).  `tags`
is typed as a list: the separate runtime `Array.isArray` rejection of
non-array values is outside the embedding. -/
structure CreateReq where
  title : Option String
  content : Option String
  tags : Option (List String)
  mainTag : Option String
deriving DecidableEq, Repr

abbrev UpdateReq := CreateReq

/-- `createPost` (`post.controller.ts:227-283`).  Note that its tag loop
calls `Tag.create({ name, type: "USER" })` with no `createdBy`. -/
def createPost (db : TagDB) (store : EntityStore) (author : UserId) (r : CreateReq) :
    Resp × TagDB × EntityStore :=
  match r.title, r.content, r.tags, r.mainTag with
  | some title, some content, some tagNames, some mainTagName =>
    if title == "" || content == "" || mainTagName == "" then
      (Resp.badRequest "Missing required fields", db, store)
    else
      match resolveLoop none (fun s => s) db (normalizePostNames tagNames) with
      | (Except.error _, db1) => (Resp.serverError, db1, store)
      | (Except.ok resolved, db1) =>
        match findSystemTagByName db1 (jsToLower mainTagName) with
        | none => (Resp.badRequest "mainTag must be a valid SYSTEM tag", db1, store)
        | some mainTagDoc =>
          let finalTags := attachMain resolved mainTagDoc
          let post : ContentEntity :=
            { id := store.nextId, title := title, content := content, author := author,
              tags := finalTags.map (fun t => t.id), mainTag := mainTagDoc.id }
          (Resp.created post, db1, store.saveNew post)
  | _, _, _, _ => (Resp.badRequest "Missing required fields", db, store)

/-- `createProject` (`project.controller.ts:285-352`).  Unlike `createPost`
it passes the raw names through `toLowerCase()` only (no trim, no
empty-drop, no dedup) and supplies `createdBy: author` to `Tag.create`. -/
def createProject (db : TagDB) (store : EntityStore) (author : UserId) (r : CreateReq) :
    Resp × TagDB × EntityStore :=
  match r.title, r.content, r.tags, r.mainTag with
  | some title, some content, some tagNames, some mainTagName =>
    if title == "" || content == "" || mainTagName == "" then
      (Resp.badRequest "Missing required fields", db, store)
    else
      match resolveLoop (some author) jsToLower db tagNames with
      | (Except.error _, db1) => (Resp.serverError, db1, store)
      | (Except.ok resolved, db1) =>
        match findSystemTagByName db1 (jsToLower mainTagName) with
        | none => (Resp.badRequest "mainTag must be a valid SYSTEM tag", db1, store)
        | some mainTagDoc =>
          let finalTags := attachMain resolved mainTagDoc
          let project : ContentEntity :=
            { id := store.nextId, title := title, content := content, author := author,
              tags := finalTags.map (fun t => t.id), mainTag := mainTagDoc.id }
          (Resp.created project, db1, store.saveNew project)
  | _, _, _, _ => (Resp.badRequest "Missing required fields", db, store)

/-- `updatePost` (`post.controller.ts:319-378`).  Title/content are changed
on the in-memory document before the tags branch; nothing is persisted
until `post.save()`, so every early return leaves the store unchanged. -/
def updatePost (db : TagDB) (store : EntityStore) (postId : EntityId) (r : UpdateReq) :
    Resp × TagDB × EntityStore :=
  match store.findById postId with
  | none => (Resp.notFound "Post not found", db, store)
  | some post =>
    let post1 := { post with
      title := r.title.getD post.title,
      content := r.content.getD post.content }
    if r.tags.isNone && r.mainTag.isNone then
      (Resp.ok (some post1), db, store.saveExisting post1)
    else if r.tags.isNone || r.mainTag.getD "" == "" then
      (Resp.badRequest "Both tags and mainTag are required when updating tags", db, store)
    else
      match resolveLoop none (fun s => s) db (normalizePostNames (r.tags.getD [])) with
      | (Except.error _, db1) => (Resp.serverError, db1, store)
      | (Except.ok resolved, db1) =>
        match findSystemTagByName db1 (jsToLower (r.mainTag.getD "")) with
        | none => (Resp.badRequest "mainTag must be a valid SYSTEM tag", db1, store)
        | some mainTagDoc =>
          let finalTags := attachMain resolved mainTagDoc
          let post2 := { post1 with
            tags := finalTags.map (fun t => t.id), mainTag := mainTagDoc.id }
          (Resp.ok (some post2), db1, store.saveExisting post2)

/-- `updateProject` (`project.controller.ts:403-479`): like `updatePost`
but with the owner-or-admin check after the 404 check, and the project
variant of the tag loop.  (The source message strings contain quotes,
elided here.) -/
def updateProject (db : TagDB) (store : EntityStore) (requester : AuthUser)
    (projectId : EntityId) (r : UpdateReq) : Resp × TagDB × EntityStore :=
  match store.findById projectId with
  | none => (Resp.notFound "Project not found", db, store)
  | some project =>
    if requester.role != Role.admin && project.author != requester.id then
      (Resp.forbidden "Not authorized to update this project", db, store)
    else
      let project1 := { project with
        title := r.title.getD project.title,
        content := r.content.getD project.content }
      if r.tags.isNone && r.mainTag.isNone then
        (Resp.ok (some project1), db, store.saveExisting project1)
      else if r.tags.isNone || r.mainTag.getD "" == "" then
        (Resp.badRequest "Both tags (array) and mainTag must be provided to update tags",
          db, store)
      else
        match resolveLoop (some requester.id) jsToLower db (r.tags.getD []) with
        | (Except.error _, db1) => (Resp.serverError, db1, store)
        | (Except.ok resolved, db1) =>
          match findSystemTagByName db1 (jsToLower (r.mainTag.getD "")) with
          | none => (Resp.badRequest "mainTag must be a valid SYSTEM tag", db1, store)
          | some mainTagDoc =>
            let finalTags := attachMain resolved mainTagDoc
            let project2 := { project1 with
              tags := finalTags.map (fun t => t.id), mainTag := mainTagDoc.id }
            (Resp.ok (some project2), db1, store.saveExisting project2)

/-- `deleteProject` (`project.controller.ts:513-538`). -/
def deleteProject (store : EntityStore) (requester : AuthUser) (projectId : EntityId) :
    Resp × EntityStore :=
  match store.findById projectId with
  | none => (Resp.notFound "Project not found", store)
  | some project =>
    if requester.role != Role.admin && project.author != requester.id then
      (Resp.forbidden "Not authorized to delete this project", store)
    else
      (Resp.ok none, store.deleteById projectId)

/-! ## Comments (`comment.controller.ts`, model registry in `src/utils`) -/

/-- The parent discriminator stored on a comment (`parentModel`,
`"Post" | "Project"`). -/
inductive ParentKind where
  | post
  | project
deriving DecidableEq, Repr

/-- `getModelEntry(parentType)`: the closed route-token registry
(`posts ↦ Post`, `projects ↦ Project`); any other token throws
`Invalid parent type`, which the controllers map to a 400. -/
def getModelEntry (parentType : String) : Option ParentKind :=
  if parentType == "posts" then some ParentKind.post
  else if parentType == "projects" then some ParentKind.project
  else none

/-- A Comment document (`src/models/Comment.ts`): polymorphic parent
reference `(parent, parentModel)` plus author and content. -/
structure Comment where
  id : Nat
  parent : EntityId
  parentModel : ParentKind
  author : UserId
  content : String
deriving DecidableEq, Repr

abbrev CommentStore := List Comment

/-- `updateComment` (`comment.controller.ts:190-229`): resolve the route
token, reject empty content, 404 on a missing comment, then reject with 403
when the stored `(parent, parentModel)` differs from the parent declared in
the path; only then write the new content. -/
def updateComment (cs : CommentStore) (parentType : String) (parentId : EntityId)
    (commentId : Nat) (content : Option String) : Resp × CommentStore :=
  match getModelEntry parentType with
  | none => (Resp.badRequest "Invalid parent type", cs)
  | some parentModel =>
    match content with
    | none => (Resp.badRequest "Content cannot be empty", cs)
    | some c =>
      if jsTrim c == "" then (Resp.badRequest "Content cannot be empty", cs)
      else
        match cs.find? (fun cm => cm.id == commentId) with
        | none => (Resp.notFound "Comment not found", cs)
        | some cm =>
          if cm.parent != parentId || cm.parentModel != parentModel then
            (Resp.forbidden "Comment does not belong to this resource", cs)
          else
            (Resp.ok none,
             cs.map (fun x => if x.id == commentId then { x with content := jsTrim c } else x))

/-- `deleteComment` (`comment.controller.ts:266-296`). -/
def deleteComment (cs : CommentStore) (parentType : String) (parentId : EntityId)
    (commentId : Nat) : Resp × CommentStore :=
  match getModelEntry parentType with
  | none => (Resp.badRequest "Invalid parent type", cs)
  | some parentModel =>
    match cs.find? (fun cm => cm.id == commentId) with
    | none => (Resp.notFound "Comment not found", cs)
    | some cm =>
      if cm.parent != parentId || cm.parentModel != parentModel then
        (Resp.forbidden "Comment does not belong to this resource", cs)
      else
        (Resp.ok none, cs.eraseP (fun x => x.id == commentId))

/-! ## Middleware pipeline (`role.middleware.ts`, `ownership.middleware.ts`,
`project.routes.ts`) -/

/-- `requireRoles(...allowed)`: 403 when the authenticated requester's role
is not in the allowed list (`role.middleware.ts`).  `none` means the
middleware calls `next()`. -/
def requireRoles (allowed : List Role) (u : AuthUser) : Option Resp :=
  if allowed.contains u.role then none
  else some (Resp.forbidden "Access forbidden for your role.")

/-- `isOwnerOrAdmin(model)` (`ownership.middleware.ts`): 404 when the
resource does not exist, `next()` when the requester is admin or the
resource's author, 403 otherwise.  The argument is the author of the
resource found by id, if any. -/
def isOwnerOrAdminGate (resourceAuthor : Option UserId) (u : AuthUser) : Option Resp :=
  match resourceAuthor with
  | none => some (Resp.notFound "Resource not found")
  | some authorId =>
    if u.role == Role.admin || authorId == u.id then none
    else some (Resp.forbidden "Not authorized to perform this action")

/-- The `PUT /api/projects/:id` pipeline (`project.routes.ts:30-43`):
`requireRoles("member","admin")`, then `isOwnerOrAdmin(Project)`, then the
controller. -/
def updateProjectPipeline (u : AuthUser) (db : TagDB) (store : EntityStore)
    (projectId : EntityId) (r : UpdateReq) : Resp × TagDB × EntityStore :=
  match requireRoles [Role.member, Role.admin] u with
  | some resp => (resp, db, store)
  | none =>
    match isOwnerOrAdminGate ((store.findById projectId).map (fun p => p.author)) u with
    | some resp => (resp, db, store)
    | none => updateProject db store u projectId r

/-- The `DELETE /api/projects/:id` pipeline (`project.routes.ts:30-46`). -/
def deleteProjectPipeline (u : AuthUser) (store : EntityStore) (projectId : EntityId) :
    Resp × EntityStore :=
  match requireRoles [Role.member, Role.admin] u with
  | some resp => (resp, store)
  | none =>
    match isOwnerOrAdminGate ((store.findById projectId).map (fun p => p.author)) u with
    | some resp => (resp, store)
    | none => deleteProject store u projectId

/-! ## Users, membership and admin operations (`admin.controller.ts`, the
`MailerService` iterations) -/

inductive MembershipStatus where
  | pending
  | approved
  | rejected
  | expired
deriving DecidableEq, Repr

/-- A User document restricted to the fields the admin operations decide
on.  Username/email (only fed to the mailer) and the timestamp fields are
outside the embedding. -/
structure User where
  id : UserId
  role : Role
  membershipStatus : MembershipStatus
deriving DecidableEq, Repr

abbrev UserStore := List User

/-- Outcome of a `MailerService.send*Email` call as seen by its caller:
the promise resolved, or the failure was caught and logged inside the
service, or the failure was re-raised to the caller. -/
inductive MailResult where
  | sentOk
  | failLogged
  | raised
deriving DecidableEq, Repr

/-- The `MailerService` iteration that wraps `sendMail` in try/catch and
only `console.error`s a failure (the `catch` variant of
`sendApprovalEmail`/`sendRejectionEmail`): a failed send never raises. The
Boolean argument abstracts the outcome of the outbound SMTP call. -/
def mailerCatching (emailOk : Bool) : MailResult :=
  if emailOk then MailResult.sentOk else MailResult.failLogged

/-- The `MailerService` iteration that returns the `sendMail` promise
directly, so a send failure propagates to the awaiting controller. -/
def mailerPlain (emailOk : Bool) : MailResult :=
  if emailOk then MailResult.sentOk else MailResult.raised

/-- `approveUser` (`admin.controller.ts:87-109`), parameterized by the
mailer in use: 404 on a missing user, 400 unless pending, otherwise persist
`membershipStatus = approved` and `role = member` (the `save()` completes
before the email is attempted), then await the approval email; a raised
mailer error lands in the surrounding catch and produces a 500 — after the
transition was already persisted. -/
def approveUser (mailer : Bool → MailResult) (emailOk : Bool) (users : UserStore)
    (userId : UserId) : Resp × UserStore :=
  match users.find? (fun u => u.id == userId) with
  | none => (Resp.notFound "User not found", users)
  | some u =>
    if u.membershipStatus != MembershipStatus.pending then
      (Resp.badRequest "User is not pending", users)
    else
      let users1 := users.map (fun v =>
        if v.id == userId then
          { v with membershipStatus := MembershipStatus.approved, role := Role.member }
        else v)
      match mailer emailOk with
      | MailResult.raised => (Resp.serverError, users1)
      | _ => (Resp.ok none, users1)

/-- `rejectUser` (`admin.controller.ts:148-169`): as `approveUser` but the
persisted transition is `membershipStatus = rejected` with the role
unchanged. -/
def rejectUser (mailer : Bool → MailResult) (emailOk : Bool) (users : UserStore)
    (userId : UserId) : Resp × UserStore :=
  match users.find? (fun u => u.id == userId) with
  | none => (Resp.notFound "User not found", users)
  | some u =>
    if u.membershipStatus != MembershipStatus.pending then
      (Resp.badRequest "User is not pending", users)
    else
      let users1 := users.map (fun v =>
        if v.id == userId then { v with membershipStatus := MembershipStatus.rejected }
        else v)
      match mailer emailOk with
      | MailResult.raised => (Resp.serverError, users1)
      | _ => (Resp.ok none, users1)

/-- `deleteUser` (`admin.controller.ts:544-576`): reject self-deletion,
404 on a missing target, refuse to delete an admin when the total admin
count is at most 1, otherwise remove the target. -/
def deleteUser (users : UserStore) (currentAdminId : UserId) (userId : UserId) :
    Resp × UserStore :=
  if userId == currentAdminId then
    (Resp.badRequest "You cannot delete your own account", users)
  else
    match users.find? (fun u => u.id == userId) with
    | none => (Resp.notFound "User not found", users)
    | some u =>
      if u.role == Role.admin then
        if users.countP (fun v => v.role == Role.admin) ≤ 1 then
          (Resp.badRequest "Cannot delete the last admin account", users)
        else
          (Resp.ok none, users.eraseP (fun v => v.id == userId))
      else
        (Resp.ok none, users.eraseP (fun v => v.id == userId))

/-! ## Helper lemmas -/

/-- Membership in the Set-style deduplication: an element survives iff it
occurs in the list and was not already seen. -/
theorem mem_dedupKeepFirstAux (l : List String) :
    ∀ (seen : List String) (x : String),
      x ∈ dedupKeepFirstAux seen l ↔ x ∈ l ∧ x ∉ seen := by
  induction l with
  | nil => intro seen x; simp [dedupKeepFirstAux]
  | cons y ys ih =>
    intro seen x
    by_cases hy : y ∈ seen
    · simp only [dedupKeepFirstAux, if_pos hy, ih]
      constructor
      · rintro ⟨hx, hxs⟩; exact ⟨List.mem_cons_of_mem _ hx, hxs⟩
      · rintro ⟨hx, hxs⟩
        rcases List.mem_cons.mp hx with rfl | hx
        · exact absurd hy hxs
        · exact ⟨hx, hxs⟩
    · simp only [dedupKeepFirstAux, if_neg hy, List.mem_cons, ih]
      constructor
      · rintro (rfl | ⟨hx, hxs⟩)
        · exact ⟨Or.inl rfl, hy⟩
        · refine ⟨Or.inr hx, fun hs => hxs ?_⟩
          exact Or.inr hs
      · rintro ⟨rfl | hx, hxs⟩
        · exact Or.inl rfl
        · by_cases hxy : x = y
          · exact Or.inl hxy
          · refine Or.inr ⟨hx, ?_⟩
            rintro (h | h)
            · exact hxy h
            · exact hxs h

/-- The Set-style deduplication yields a list without duplicates. -/
theorem nodup_dedupKeepFirstAux (l : List String) :
    ∀ seen : List String, (dedupKeepFirstAux seen l).Nodup := by
  induction l with
  | nil => intro seen; simp [dedupKeepFirstAux]
  | cons y ys ih =>
    intro seen
    by_cases hy : y ∈ seen
    · simpa [dedupKeepFirstAux, if_pos hy] using ih seen
    · simp only [dedupKeepFirstAux, if_neg hy, List.nodup_cons]
      refine ⟨fun hmem => ?_, ih (y :: seen)⟩
      exact ((mem_dedupKeepFirstAux ys (y :: seen) y).mp hmem).2 (List.mem_cons_self y seen)

/-- The element removed by `eraseP` is the one `find?` returns, so the count
of `p`-satisfying elements drops by exactly `p x`. -/
theorem countP_of_eraseP {α : Type} (p q : α → Bool) (l : List α) (x : α)
    (h : l.find? q = some x) :
    l.countP p = (l.eraseP q).countP p + (if p x then 1 else 0) := by
  induction l with
  | nil => simp at h
  | cons a l ih =>
    by_cases hq : q a
    · rw [List.find?_cons_of_pos _ hq] at h
      injection h with h; subst h
      rw [List.eraseP_cons_of_pos hq, List.countP_cons]
    · rw [List.find?_cons_of_neg _ hq] at h
      rw [List.eraseP_cons_of_neg hq, List.countP_cons, List.countP_cons, ih h]
      omega

/-- The resolved main tag is always an element of the final tag-id list
produced by the shared mainTag-inclusion step. -/
theorem mainTag_mem_attachMain (resolved : List Tag) (d : Tag) :
    d.id ∈ (attachMain resolved d).map (fun t => t.id) := by
  unfold attachMain
  by_cases h : resolved.any (fun t => t.id == d.id)
  · rw [if_pos h]
    rcases List.any_eq_true.mp h with ⟨t, ht, hid⟩
    exact List.mem_map.mpr ⟨t, ht, beq_iff_eq.mp hid⟩
  · rw [if_neg h, List.map_append]
    exact List.mem_append_right _ (by simp)

/-! ## Claim theorems -/

/-- C1: for every successful content-entity creation or tag-affecting
update (Post or Project), the persisted tag set contains the resolved
mainTag id — if the resolved SYSTEM main tag was not already among the
resolved requested tags it is appended rather than the request being
rejected. -/
theorem claim_c1_mainTag_inclusion :
    (∀ db store author r e,
        (createPost db store author r).1 = Resp.created e → e.mainTag ∈ e.tags) ∧
    (∀ db store author r e,
        (createProject db store author r).1 = Resp.created e → e.mainTag ∈ e.tags) ∧
    (∀ db store postId r e,
        (r.tags ≠ none ∨ r.mainTag ≠ none) →
        (updatePost db store postId r).1 = Resp.ok (some e) → e.mainTag ∈ e.tags) ∧
    (∀ db store u projectId r e,
        (r.tags ≠ none ∨ r.mainTag ≠ none) →
        (updateProject db store u projectId r).1 = Resp.ok (some e) → e.mainTag ∈ e.tags) := by
  refine ⟨?_, ?_, ?_, ?_⟩
  · intro db store author r e h
    obtain ⟨t, c, tg, m⟩ := r
    cases t <;> cases c <;> cases tg <;> cases m <;> simp only [createPost] at h
    all_goals try simp at h
    split at h
    · simp at h
    · split at h
      · simp at h
      · split at h
        · simp at h
        · simp only [Prod.fst] at h
          injection h with he
          subst he
          exact mainTag_mem_attachMain _ _
  · intro db store author r e h
    obtain ⟨t, c, tg, m⟩ := r
    cases t <;> cases c <;> cases tg <;> cases m <;> simp only [createProject] at h
    all_goals try simp at h
    split at h
    · simp at h
    · split at h
      · simp at h
      · split at h
        · simp at h
        · simp only [Prod.fst] at h
          injection h with he
          subst he
          exact mainTag_mem_attachMain _ _
  · intro db store postId r e hne h
    unfold updatePost at h
    split at h
    · simp at h
    · split at h
      · rename_i hc
        rw [Bool.and_eq_true] at hc
        obtain ⟨hc1, hc2⟩ := hc
        rcases hne with hne | hne
        · exact absurd (Option.isNone_iff_eq_none.mp hc1) hne
        · exact absurd (Option.isNone_iff_eq_none.mp hc2) hne
      · split at h
        · simp at h
        · split at h
          · simp at h
          · split at h
            · simp at h
            · simp only [Prod.fst] at h
              injection h with he
              injection he with he2
              subst he2
              exact mainTag_mem_attachMain _ _
  · intro db store u projectId r e hne h
    unfold updateProject at h
    split at h
    · simp at h
    · split at h
      · simp at h
      · split at h
        · rename_i hc
          rw [Bool.and_eq_true] at hc
          obtain ⟨hc1, hc2⟩ := hc
          rcases hne with hne | hne
          · exact absurd (Option.isNone_iff_eq_none.mp hc1) hne
          · exact absurd (Option.isNone_iff_eq_none.mp hc2) hne
        · split at h
          · simp at h
          · split at h
            · simp at h
            · split at h
              · simp at h
              · simp only [Prod.fst] at h
                injection h with he
                injection he with he2
                subst he2
                exact mainTag_mem_attachMain _ _

/-- C1 witness: a concrete successful `createPost` whose persisted entity
contains its mainTag. -/
theorem claim_c1_witness :
    (({ id := 0, title := "t", content := "c", author := 7, tags := [0], mainTag := 0 } :
        ContentEntity)).mainTag ∈
      (({ id := 0, title := "t", content := "c", author := 7, tags := [0], mainTag := 0 } :
        ContentEntity)).tags :=
  claim_c1_mainTag_inclusion.1 ⟨[⟨0, "robotics", TagType.SYSTEM, some 0⟩], 1⟩ ⟨[], 0⟩ 7
    ⟨some "t", some "c", some ["robotics"], some "robotics"⟩ _ (by rfl)

/-- C2 counterexample: `createPost` with an unknown requested tag name and
an unresolvable mainTag does not fail with the 400 `InvalidMainTag`
response the claim requires — the tag-resolution loop aborts first with a
500, because `post.controller.ts` calls `Tag.create` without the
schema-required `createdBy` field. -/
theorem claim_c2_counterexample :
    (createPost ⟨[⟨0, "robotics", TagType.SYSTEM, some 0⟩], 1⟩ ⟨[], 0⟩ 7
        ⟨some "t", some "c", some ["react"], some "nonexistent"⟩).1 = Resp.serverError ∧
    Resp.serverError ≠ Resp.badRequest "mainTag must be a valid SYSTEM tag" :=
  ⟨rfl, by decide⟩

/-- C2 (amended): whenever the tag-resolution loop itself succeeds (always
possible on the Project paths, and on the Post paths exactly when every
requested name already resolves to an existing tag), an unresolvable
mainTag makes the operation fail with the 400 `InvalidMainTag` response and
no Post/Project is persisted; USER tags created while resolving the
requested list remain in the Tag collection (`db1`). -/
theorem claim_c2_amended_invalid_mainTag :
    (∀ db store author title content tagNames mainTagName resolved db1,
        title ≠ "" → content ≠ "" → mainTagName ≠ "" →
        resolveLoop (some author) jsToLower db tagNames = (Except.ok resolved, db1) →
        findSystemTagByName db1 (jsToLower mainTagName) = none →
        createProject db store author ⟨some title, some content, some tagNames, some mainTagName⟩
          = (Resp.badRequest "mainTag must be a valid SYSTEM tag", db1, store)) ∧
    (∀ db store author title content tagNames mainTagName resolved db1,
        title ≠ "" → content ≠ "" → mainTagName ≠ "" →
        resolveLoop none (fun s => s) db (normalizePostNames tagNames)
            = (Except.ok resolved, db1) →
        findSystemTagByName db1 (jsToLower mainTagName) = none →
        createPost db store author ⟨some title, some content, some tagNames, some mainTagName⟩
          = (Resp.badRequest "mainTag must be a valid SYSTEM tag", db1, store)) ∧
    (∀ db store postId post title content tagNames mainTagName resolved db1,
        store.findById postId = some post →
        mainTagName ≠ "" →
        resolveLoop none (fun s => s) db (normalizePostNames tagNames)
            = (Except.ok resolved, db1) →
        findSystemTagByName db1 (jsToLower mainTagName) = none →
        updatePost db store postId ⟨title, content, some tagNames, some mainTagName⟩
          = (Resp.badRequest "mainTag must be a valid SYSTEM tag", db1, store)) ∧
    (∀ db store u projectId project title content tagNames mainTagName resolved db1,
        store.findById projectId = some project →
        (u.role = Role.admin ∨ project.author = u.id) →
        mainTagName ≠ "" →
        resolveLoop (some u.id) jsToLower db tagNames = (Except.ok resolved, db1) →
        findSystemTagByName db1 (jsToLower mainTagName) = none →
        updateProject db store u projectId ⟨title, content, some tagNames, some mainTagName⟩
          = (Resp.badRequest "mainTag must be a valid SYSTEM tag", db1, store)) := by
  refine ⟨?_, ?_, ?_, ?_⟩
  · intro db store author title content tagNames mainTagName resolved db1 h1 h2 h3 hloop hmain
    simp only [createProject]
    rw [if_neg (by simp [h1, h2, h3]), hloop]
    simp [hmain]
  · intro db store author title content tagNames mainTagName resolved db1 h1 h2 h3 hloop hmain
    simp only [createPost]
    rw [if_neg (by simp [h1, h2, h3]), hloop]
    simp [hmain]
  · intro db store postId post title content tagNames mainTagName resolved db1 hfind hm hloop hmain
    simp only [updatePost, hfind]
    rw [if_neg (by simp), if_neg (by simp [hm])]
    simp [hloop, hmain]
  · intro db store u projectId project title content tagNames mainTagName resolved db1
      hfind hauth hm hloop hmain
    simp only [updateProject, hfind]
    rw [if_neg (by rcases hauth with h | h <;> simp [h]), if_neg (by simp),
      if_neg (by simp [hm])]
    simp [hloop, hmain]

/-- C2 witness: a concrete `createProject` with an unresolvable mainTag
returns the 400, the project store stays empty, and the USER tag created
while resolving the requested list remains. -/
theorem claim_c2_witness :
    createProject ⟨[⟨0, "robotics", TagType.SYSTEM, some 0⟩], 1⟩ ⟨[], 0⟩ 7
        ⟨some "t", some "c", some ["react"], some "nonexistent"⟩
      = (Resp.badRequest "mainTag must be a valid SYSTEM tag",
         ⟨[⟨0, "robotics", TagType.SYSTEM, some 0⟩, ⟨1, "react", TagType.USER, some 7⟩], 2⟩,
         ⟨[], 0⟩) :=
  claim_c2_amended_invalid_mainTag.1
    ⟨[⟨0, "robotics", TagType.SYSTEM, some 0⟩], 1⟩ ⟨[], 0⟩ 7 "t" "c" ["react"] "nonexistent"
    [⟨1, "react", TagType.USER, some 7⟩]
    ⟨[⟨0, "robotics", TagType.SYSTEM, some 0⟩, ⟨1, "react", TagType.USER, some 7⟩], 2⟩
    (by decide) (by decide) (by decide) (by rfl) (by rfl)

/-- C3: the scenario `tags=["react","robotics"]`, `mainTag="robotics"`
(with "robotics" a SYSTEM tag and "react" unknown) does not succeed through
`createPost` as the claim states — the post path 500s because its
`Tag.create` omits the schema-required `createdBy` — whereas the same
request through `createProject`, which does pass `createdBy`, realizes the
claimed outcome: a USER tag "react" created with the requester as creator
and an entity with exactly the two tags and mainTag = robotics. -/
theorem claim_c3_createPost_bug :
    createPost ⟨[⟨0, "robotics", TagType.SYSTEM, some 0⟩], 1⟩ ⟨[], 0⟩ 7
        ⟨some "t", some "c", some ["react", "robotics"], some "robotics"⟩
      = (Resp.serverError, ⟨[⟨0, "robotics", TagType.SYSTEM, some 0⟩], 1⟩, ⟨[], 0⟩) ∧
    createProject ⟨[⟨0, "robotics", TagType.SYSTEM, some 0⟩], 1⟩ ⟨[], 0⟩ 7
        ⟨some "t", some "c", some ["react", "robotics"], some "robotics"⟩
      = (Resp.created ⟨0, "t", "c", 7, [1, 0], 0⟩,
         ⟨[⟨0, "robotics", TagType.SYSTEM, some 0⟩, ⟨1, "react", TagType.USER, some 7⟩], 2⟩,
         ⟨[⟨0, "t", "c", 7, [1, 0], 0⟩], 1⟩) :=
  ⟨rfl, rfl⟩

/-- C4 counterexample: on Project creation the requested tag-name list is
not deduplicated — `tags=["robotics","robotics"]` persists the same tag id
twice (plus the appended main tag), instead of the set semantics the claim
asserts for every content-entity creation. -/
theorem claim_c4_counterexample :
    (createProject ⟨[⟨0, "robo", TagType.SYSTEM, some 0⟩], 1⟩ ⟨[], 0⟩ 7
        ⟨some "t", some "c", some ["robotics", "robotics"], some "robo"⟩).1
      = Resp.created ⟨0, "t", "c", 7, [1, 1, 0], 0⟩ ∧
    ¬ ([1, 1, 0] : List TagId).Nodup :=
  ⟨rfl, by decide⟩

/-- C4 (amended): on Post creation each requested name is trimmed and
lowercased, empty strings are dropped and duplicates are removed (so the
three spellings of "robotics" resolve to one tag occurring once); on
Project creation names are only lowercased before lookup (the Tag schema's
setters still make lookup and storage trim-insensitive), but duplicates are
not removed and empty strings are not dropped, so a duplicated requested
name persists the same tag id twice. -/
theorem claim_c4_amended_normalization :
    (∀ l : List String, (normalizePostNames l).Nodup) ∧
    (∀ (l : List String) (s : String), s ∈ l → jsToLower (jsTrim s) ≠ "" →
        jsToLower (jsTrim s) ∈ normalizePostNames l) ∧
    (∀ (l : List String) (s : String), s ∈ normalizePostNames l →
        s ≠ "" ∧ ∃ t ∈ l, s = jsToLower (jsTrim t)) ∧
    ((createPost ⟨[⟨0, "robotics", TagType.SYSTEM, some 0⟩], 1⟩ ⟨[], 0⟩ 7
        ⟨some "t", some "c", some ["Robotics ", "robotics", " ROBOTICS"], some "robotics"⟩).1
      = Resp.created ⟨0, "t", "c", 7, [0], 0⟩) ∧
    ((createProject ⟨[⟨0, "robo", TagType.SYSTEM, some 0⟩], 1⟩ ⟨[], 0⟩ 7
        ⟨some "t", some "c", some ["ai", "ai"], some "robo"⟩).1
      = Resp.created ⟨0, "t", "c", 7, [1, 1, 0], 0⟩) := by
  refine ⟨?_, ?_, ?_, rfl, rfl⟩
  · intro l
    exact nodup_dedupKeepFirstAux _ []
  · intro l s hs hne
    apply (mem_dedupKeepFirstAux _ _ _).mpr
    refine ⟨?_, by simp⟩
    apply List.mem_filter.mpr
    exact ⟨List.mem_map.mpr ⟨s, hs, rfl⟩, by simp [hne]⟩
  · intro l s hmem
    have h := (mem_dedupKeepFirstAux _ _ _).mp hmem
    have h2 := List.mem_filter.mp h.1
    obtain ⟨t, ht, rfl⟩ := List.mem_map.mp h2.1
    have hne : jsToLower (jsTrim t) ≠ "" := by simpa using h2.2
    exact ⟨hne, t, ht, rfl⟩

/-- C4 witness: the normalized Post-side name list for the three spellings
contains "robotics" and has no duplicates. -/
theorem claim_c4_witness :
    jsToLower (jsTrim "Robotics ") ∈
        normalizePostNames ["Robotics ", "robotics", " ROBOTICS"] ∧
    (normalizePostNames ["Robotics ", "robotics", " ROBOTICS"]).Nodup :=
  ⟨claim_c4_amended_normalization.2.1 _ "Robotics " (by simp) (by decide),
   claim_c4_amended_normalization.1 _⟩

/-- C5: an update that supplies `tags` without `mainTag`, or `mainTag`
without a `tags` array, returns 400 and leaves the persisted entity (and
the Tag collection) completely unchanged, even when title/content were also
supplied. -/
theorem claim_c5_tag_update_requires_both :
    (∀ db store postId post (r : UpdateReq),
        store.findById postId = some post →
        ((∃ l, r.tags = some l) ∧ r.mainTag = none) ∨
          (r.tags = none ∧ ∃ m, r.mainTag = some m) →
        updatePost db store postId r
          = (Resp.badRequest "Both tags and mainTag are required when updating tags",
             db, store)) ∧
    (∀ db store (u : AuthUser) projectId project (r : UpdateReq),
        store.findById projectId = some project →
        (u.role = Role.admin ∨ project.author = u.id) →
        ((∃ l, r.tags = some l) ∧ r.mainTag = none) ∨
          (r.tags = none ∧ ∃ m, r.mainTag = some m) →
        updateProject db store u projectId r
          = (Resp.badRequest "Both tags (array) and mainTag must be provided to update tags",
             db, store)) := by
  constructor
  · intro db store postId post r hfind hcond
    obtain ⟨t, c, tg, m⟩ := r
    rcases hcond with ⟨⟨l, hl⟩, hm⟩ | ⟨hl, m', hm⟩ <;> subst hl <;> subst hm <;>
      simp only [updatePost, hfind] <;>
      rw [if_neg (by simp), if_pos (by simp)]
  · intro db store u projectId project r hfind hauth hcond
    obtain ⟨t, c, tg, m⟩ := r
    rcases hcond with ⟨⟨l, hl⟩, hm⟩ | ⟨hl, m', hm⟩ <;> subst hl <;> subst hm <;>
      simp only [updateProject, hfind] <;>
      rw [if_neg (by rcases hauth with h | h <;> simp [h]), if_neg (by simp),
        if_pos (by simp)]

/-- C5 witness: a concrete `updatePost` supplying `title` and `tags` but no
`mainTag` returns 400 and leaves both stores untouched. -/
theorem claim_c5_witness :
    updatePost ⟨[], 0⟩ ⟨[⟨5, "t", "c", 3, [0], 0⟩], 6⟩ 5
        ⟨some "newTitle", none, some ["x"], none⟩
      = (Resp.badRequest "Both tags and mainTag are required when updating tags",
         ⟨[], 0⟩, ⟨[⟨5, "t", "c", 3, [0], 0⟩], 6⟩) :=
  claim_c5_tag_update_requires_both.1 ⟨[], 0⟩ ⟨[⟨5, "t", "c", 3, [0], 0⟩], 6⟩ 5
    ⟨5, "t", "c", 3, [0], 0⟩ ⟨some "newTitle", none, some ["x"], none⟩ (by rfl)
    (Or.inl ⟨⟨["x"], rfl⟩, rfl⟩)

/-- C6: when the targeted comment exists but its stored
`(parent, parentModel)` pair differs from the parent id and kind declared
in the request path, update and delete are rejected with 403 and the
comment store is unchanged (the handlers never consult the parent
collections here, so this holds even when the path id coincides with an
entity of the other kind). -/
theorem claim_c6_comment_parent_crosscheck :
    (∀ cs parentType parentId commentId c pk cm,
        getModelEntry parentType = some pk →
        jsTrim c ≠ "" →
        cs.find? (fun x => x.id == commentId) = some cm →
        (cm.parent ≠ parentId ∨ cm.parentModel ≠ pk) →
        updateComment cs parentType parentId commentId (some c)
          = (Resp.forbidden "Comment does not belong to this resource", cs)) ∧
    (∀ cs parentType parentId commentId pk cm,
        getModelEntry parentType = some pk →
        cs.find? (fun x => x.id == commentId) = some cm →
        (cm.parent ≠ parentId ∨ cm.parentModel ≠ pk) →
        deleteComment cs parentType parentId commentId
          = (Resp.forbidden "Comment does not belong to this resource", cs)) := by
  constructor
  · intro cs parentType parentId commentId c pk cm hentry htrim hfind hmis
    simp only [updateComment, hentry, hfind]
    rw [if_neg (by simp [htrim]), if_pos (by rcases hmis with h | h <;> simp [h])]
  · intro cs parentType parentId commentId pk cm hentry hfind hmis
    simp only [deleteComment, hentry, hfind]
    rw [if_pos (by rcases hmis with h | h <;> simp [h])]

/-- C6 witness: a comment stored under Post 5 cannot be updated or deleted
through the `projects/5` path. -/
theorem claim_c6_witness :
    updateComment [⟨9, 5, ParentKind.post, 3, "old"⟩] "projects" 5 9 (some "new")
      = (Resp.forbidden "Comment does not belong to this resource",
         [⟨9, 5, ParentKind.post, 3, "old"⟩]) ∧
    deleteComment [⟨9, 5, ParentKind.post, 3, "old"⟩] "projects" 5 9
      = (Resp.forbidden "Comment does not belong to this resource",
         [⟨9, 5, ParentKind.post, 3, "old"⟩]) :=
  ⟨claim_c6_comment_parent_crosscheck.1 [⟨9, 5, ParentKind.post, 3, "old"⟩] "projects" 5 9
      "new" ParentKind.project ⟨9, 5, ParentKind.post, 3, "old"⟩ (by rfl) (by decide) (by rfl)
      (Or.inr (by decide)),
   claim_c6_comment_parent_crosscheck.2 [⟨9, 5, ParentKind.post, 3, "old"⟩] "projects" 5 9
      ParentKind.project ⟨9, 5, ParentKind.post, 3, "old"⟩ (by rfl) (by rfl)
      (Or.inr (by decide))⟩

/-- C7: on an existing project, update and delete are permitted exactly for
an admin or the author: any other requester reaching the controller gets
403 with the project unchanged, while the author or an admin succeeds
(update shown for a body without tag changes, whose success response
carries the entity with the supplied title/content applied). -/
theorem claim_c7_project_ownership :
    ∀ db store (u : AuthUser) projectId project (r : UpdateReq),
      store.findById projectId = some project →
      ((u.role = Role.admin ∨ project.author = u.id) →
          deleteProject store u projectId = (Resp.ok none, store.deleteById projectId)) ∧
      (¬(u.role = Role.admin ∨ project.author = u.id) →
          deleteProject store u projectId
            = (Resp.forbidden "Not authorized to delete this project", store)) ∧
      (¬(u.role = Role.admin ∨ project.author = u.id) →
          updateProject db store u projectId r
            = (Resp.forbidden "Not authorized to update this project", db, store)) ∧
      ((u.role = Role.admin ∨ project.author = u.id) → r.tags = none → r.mainTag = none →
          (updateProject db store u projectId r).1
            = Resp.ok (some { project with
                title := r.title.getD project.title,
                content := r.content.getD project.content })) := by
  intro db store u projectId project r hfind
  refine ⟨?_, ?_, ?_, ?_⟩
  · intro hauth
    simp only [deleteProject, hfind]
    rw [if_neg (by rcases hauth with h | h <;> simp [h])]
  · intro hauth
    push_neg at hauth
    simp only [deleteProject, hfind]
    rw [if_pos (by simp [hauth.1, hauth.2])]
  · intro hauth
    push_neg at hauth
    simp only [updateProject, hfind]
    rw [if_pos (by simp [hauth.1, hauth.2])]
  · intro hauth htg hm
    obtain ⟨t, c, tg, m⟩ := r
    simp only at htg hm
    subst htg; subst hm
    simp only [updateProject, hfind]
    rw [if_neg (by rcases hauth with h | h <;> simp [h]), if_pos (by simp)]

/-- C7 witness: member 4 cannot delete member 3's project; member 3 and an
admin can. -/
theorem claim_c7_witness :
    deleteProject ⟨[⟨5, "t", "c", 3, [0], 0⟩], 6⟩ ⟨4, Role.member⟩ 5
      = (Resp.forbidden "Not authorized to delete this project",
         ⟨[⟨5, "t", "c", 3, [0], 0⟩], 6⟩) ∧
    deleteProject ⟨[⟨5, "t", "c", 3, [0], 0⟩], 6⟩ ⟨3, Role.member⟩ 5
      = (Resp.ok none, (⟨[⟨5, "t", "c", 3, [0], 0⟩], 6⟩ : EntityStore).deleteById 5) ∧
    deleteProject ⟨[⟨5, "t", "c", 3, [0], 0⟩], 6⟩ ⟨99, Role.admin⟩ 5
      = (Resp.ok none, (⟨[⟨5, "t", "c", 3, [0], 0⟩], 6⟩ : EntityStore).deleteById 5) :=
  ⟨(claim_c7_project_ownership ⟨[], 0⟩ ⟨[⟨5, "t", "c", 3, [0], 0⟩], 6⟩ ⟨4, Role.member⟩ 5
      ⟨5, "t", "c", 3, [0], 0⟩ ⟨none, none, none, none⟩ (by rfl)).2.1 (by decide),
   (claim_c7_project_ownership ⟨[], 0⟩ ⟨[⟨5, "t", "c", 3, [0], 0⟩], 6⟩ ⟨3, Role.member⟩ 5
      ⟨5, "t", "c", 3, [0], 0⟩ ⟨none, none, none, none⟩ (by rfl)).1 (by decide),
   (claim_c7_project_ownership ⟨[], 0⟩ ⟨[⟨5, "t", "c", 3, [0], 0⟩], 6⟩ ⟨99, Role.admin⟩ 5
      ⟨5, "t", "c", 3, [0], 0⟩ ⟨none, none, none, none⟩ (by rfl)).1 (by decide)⟩

/-- C8 counterexample: an authenticated requester with role `user` updating
a nonexistent project receives 403 from the coarse role gate that runs
before any existence check — so a not-found resource can produce a 403,
contradicting the claimed 404-before-403 order for every role. -/
theorem claim_c8_counterexample :
    (updateProjectPipeline ⟨1, Role.user⟩ ⟨[], 0⟩ ⟨[], 0⟩ 9 ⟨none, none, none, none⟩).1
      = Resp.forbidden "Access forbidden for your role." ∧
    (⟨[], 0⟩ : EntityStore).findById 9 = none ∧
    Resp.forbidden "Access forbidden for your role." ≠ Resp.notFound "Resource not found" :=
  ⟨rfl, rfl, by decide⟩

/-- C8 (amended): for requesters that pass the coarse role gate
(member/admin on project mutations), resource existence is checked before
ownership authorization: a nonexistent target yields 404 regardless of
ownership, never an ownership 403; a requester failing the role gate is
refused with 403 before any existence check. -/
theorem claim_c8_amended_not_found_before_ownership :
    (∀ (u : AuthUser) db store projectId (r : UpdateReq),
        (u.role = Role.member ∨ u.role = Role.admin) →
        store.findById projectId = none →
        updateProjectPipeline u db store projectId r
          = (Resp.notFound "Resource not found", db, store)) ∧
    (∀ (u : AuthUser) store projectId,
        (u.role = Role.member ∨ u.role = Role.admin) →
        store.findById projectId = none →
        deleteProjectPipeline u store projectId
          = (Resp.notFound "Resource not found", store)) := by
  constructor
  · intro u db store projectId r hrole hfind
    rcases hrole with h | h <;>
      simp [updateProjectPipeline, requireRoles, isOwnerOrAdminGate, h, hfind]
  · intro u store projectId hrole hfind
    rcases hrole with h | h <;>
      simp [deleteProjectPipeline, requireRoles, isOwnerOrAdminGate, h, hfind]

/-- C8 witness: a member updating a nonexistent project gets 404 through
the full pipeline. -/
theorem claim_c8_witness :
    updateProjectPipeline ⟨1, Role.member⟩ ⟨[], 0⟩ ⟨[], 0⟩ 9 ⟨none, none, none, none⟩
      = (Resp.notFound "Resource not found", ⟨[], 0⟩, ⟨[], 0⟩) :=
  claim_c8_amended_not_found_before_ownership.1 ⟨1, Role.member⟩ ⟨[], 0⟩ ⟨[], 0⟩ 9
    ⟨none, none, none, none⟩ (Or.inl rfl) (by rfl)

/-- C9: with the error-swallowing `MailerService` iteration, a failed
outbound email never fails a membership approval or rejection: the user's
new membershipStatus (and, on approval, the member role) is persisted and
the admin receives the success response regardless of the email outcome. -/
theorem claim_c9_email_failure_swallowed :
    ∀ (users : UserStore) (userId : UserId) (u : User) (emailOk : Bool),
      users.find? (fun v => v.id == userId) = some u →
      u.membershipStatus = MembershipStatus.pending →
      approveUser mailerCatching emailOk users userId
          = (Resp.ok none,
             users.map (fun v =>
               if v.id == userId then
                 { v with membershipStatus := MembershipStatus.approved, role := Role.member }
               else v)) ∧
      rejectUser mailerCatching emailOk users userId
          = (Resp.ok none,
             users.map (fun v =>
               if v.id == userId then { v with membershipStatus := MembershipStatus.rejected }
               else v)) := by
  intro users userId u emailOk hfind hpending
  constructor
  · simp only [approveUser, hfind]
    rw [if_neg (by simp [hpending])]
    cases emailOk <;> simp [mailerCatching]
  · simp only [rejectUser, hfind]
    rw [if_neg (by simp [hpending])]
    cases emailOk <;> simp [mailerCatching]

/-- C9 witness: approving pending user 2 with a failing outbound email
still persists the approved/member transition and returns success. -/
theorem claim_c9_witness :
    approveUser mailerCatching false [⟨2, Role.user, MembershipStatus.pending⟩] 2
      = (Resp.ok none, [⟨2, Role.member, MembershipStatus.approved⟩]) :=
  (claim_c9_email_failure_swallowed [⟨2, Role.user, MembershipStatus.pending⟩] 2
    ⟨2, Role.user, MembershipStatus.pending⟩ false (by rfl) rfl).1

/-- C10: `deleteUser` rejects self-deletion and refuses to delete an admin
when the total admin count is at most one (400, store unchanged in both
cases); consequently, from any state with at least one admin, the
at-least-one-admin invariant is preserved. -/
theorem claim_c10_delete_user_admin_invariant :
    (∀ (users : UserStore) (cur : UserId),
        deleteUser users cur cur
          = (Resp.badRequest "You cannot delete your own account", users)) ∧
    (∀ (users : UserStore) (cur target : UserId) (u : User),
        target ≠ cur →
        users.find? (fun v => v.id == target) = some u →
        u.role = Role.admin →
        users.countP (fun v => v.role == Role.admin) ≤ 1 →
        deleteUser users cur target
          = (Resp.badRequest "Cannot delete the last admin account", users)) ∧
    (∀ (users : UserStore) (cur target : UserId),
        1 ≤ users.countP (fun v => v.role == Role.admin) →
        1 ≤ (deleteUser users cur target).2.countP (fun v => v.role == Role.admin)) := by
  refine ⟨?_, ?_, ?_⟩
  · intro users cur
    simp [deleteUser]
  · intro users cur target u hne hfind hadmin hcount
    simp only [deleteUser]
    rw [if_neg (by simp [hne])]
    simp only [hfind]
    rw [if_pos (by simp [hadmin]), if_pos hcount]
  · intro users cur target hcount
    simp only [deleteUser]
    by_cases hself : (target == cur) = true
    · rw [if_pos hself]; exact hcount
    · rw [if_neg hself]
      cases hfind : users.find? (fun v => v.id == target) with
      | none => simp only [hfind]; exact hcount
      | some u =>
        simp only [hfind]
        by_cases hadmin : (u.role == Role.admin) = true
        · rw [if_pos hadmin]
          by_cases hle : users.countP (fun v => v.role == Role.admin) ≤ 1
          · rw [if_pos hle]; exact hcount
          · rw [if_neg hle]
            have h := countP_of_eraseP (fun v => v.role == Role.admin)
              (fun v => v.id == target) users u hfind
            rw [if_pos hadmin] at h
            dsimp only
            omega
        · rw [if_neg hadmin]
          have h := countP_of_eraseP (fun v => v.role == Role.admin)
            (fun v => v.id == target) users u hfind
          rw [if_neg hadmin] at h
          dsimp only
          omega

/-- C10 witness: self-deletion is refused; deleting the last admin is
refused; deleting a non-admin from a one-admin store keeps an admin. -/
theorem claim_c10_witness :
    deleteUser [⟨1, Role.admin, MembershipStatus.approved⟩] 1 1
      = (Resp.badRequest "You cannot delete your own account",
         [⟨1, Role.admin, MembershipStatus.approved⟩]) ∧
    deleteUser [⟨1, Role.admin, MembershipStatus.approved⟩,
        ⟨2, Role.user, MembershipStatus.approved⟩] 9 1
      = (Resp.badRequest "Cannot delete the last admin account",
         [⟨1, Role.admin, MembershipStatus.approved⟩,
          ⟨2, Role.user, MembershipStatus.approved⟩]) ∧
    1 ≤ (deleteUser [⟨1, Role.admin, MembershipStatus.approved⟩,
        ⟨2, Role.user, MembershipStatus.approved⟩] 1 2).2.countP
          (fun v => v.role == Role.admin) :=
  ⟨claim_c10_delete_user_admin_invariant.1 [⟨1, Role.admin, MembershipStatus.approved⟩] 1,
   claim_c10_delete_user_admin_invariant.2.1
     [⟨1, Role.admin, MembershipStatus.approved⟩, ⟨2, Role.user, MembershipStatus.approved⟩]
     9 1 ⟨1, Role.admin, MembershipStatus.approved⟩ (by decide) (by rfl) rfl (by decide),
   claim_c10_delete_user_admin_invariant.2.2
     [⟨1, Role.admin, MembershipStatus.approved⟩, ⟨2, Role.user, MembershipStatus.approved⟩]
     1 2 (by decide)⟩

end BackendService
